import Mathlib

/-!
Verification of the apkmodder pipeline (src/main.py).

The tool orchestrates five stages over a working directory: pull, decompile,
build+sign, install, universal-build.  Each stage is embedded below as a pure
function over explicit inputs:

* the filesystem is passed in as the relevant directory listing
  (a `List String` of entry names, or `List Entry` where `os.path.isdir`
  matters);
* external tool invocations (`run(cmd)` in the source) become `Ev.tool cmd`
  events in an output trace; `print(...)` calls become `Ev.print` events;
* whether an external invocation fails (non-zero exit, raising `RuntimeError`
  in `run`) is supplied by a boolean oracle.

All string manipulation mirrors what the Python code does for the
slash-separated POSIX paths the tool handles.
-/

namespace ApkModder

/-- The characters of a path after its final slash: `os.path.basename` for the
slash-separated device paths handled at src/main.py line 53. -/
def basename (p : String) : String :=
  ⟨(p.data.reverse.takeWhile (fun c => c ≠ '/')).reverse⟩

/-- `os.path.join(d, f)` for a directory and a relative entry name, as used
throughout src/main.py. -/
def pathJoin (d f : String) : String := d ++ "/" ++ f

/-- Python's `s.endswith(suf)`. -/
def strEndsWith (s suf : String) : Bool := List.isSuffixOf suf.data s.data

/-- Python's `s.startswith(p)` (used below to state glob's dot-file rule and
the `split_` naming analysis). -/
def strStartsWith (s p : String) : Bool := List.isPrefixOf p.data s.data

/-- Whether a name begins with the literal `split_` tag used by the pull
stage's collision renaming (src/main.py line 56). -/
def hasSplitTag (s : String) : Bool := strStartsWith s "split_"

/-- Python's `" ".join(parts)`, as used by `run` to format a command line. -/
def joinSpace : List String → String
  | [] => ""
  | [x] => x
  | x :: y :: xs => x ++ " " ++ joinSpace (y :: xs)

/-- Python's `s.lower()` restricted to the ASCII package identifiers the tool
compares (src/main.py line 29). -/
def lowerStr (s : String) : String := ⟨s.data.map Char.toLower⟩

/-- Contiguous-sublist test on character lists, Python's `needle in hay`. -/
def subChars (needle hay : List Char) : Bool :=
  (List.range (hay.length + 1)).any (fun i => List.isPrefixOf needle (hay.drop i))

/-- Python's substring test `needle in hay` on strings. -/
def strContainsSub (hay needle : String) : Bool := subChars needle.data hay.data

/-- Index of the last occurrence of `c` in `l` (Python's `str.rfind`),
`none` when absent. -/
def rfindIdx (c : Char) (l : List Char) : Option Nat :=
  match List.findIdx? (fun x => x = c) l.reverse with
  | none => none
  | some i => some (l.length - 1 - i)

/-- `os.path.splitext(p)[0]` on character lists: drop the extension starting at
the last dot, provided that dot comes after the last slash and the basename has
a non-dot character before it (leading dots never start an extension). -/
def stripExtChars (l : List Char) : List Char :=
  match rfindIdx '.' l with
  | none => l
  | some d =>
    match rfindIdx '/' l with
    | none => if (l.take d).any (fun c => c ≠ '.') then l.take d else l
    | some sp =>
      if sp < d then
        if ((l.drop (sp + 1)).take (d - sp - 1)).any (fun c => c ≠ '.') then l.take d else l
      else l

/-- `os.path.splitext(p)[0]`, used to name decompile output directories
(src/main.py lines 69 and 97). -/
def stripExt (s : String) : String := ⟨stripExtChars s.data⟩

/-- Whether the glob pattern `*<suf>` matches directory entry `n`: the name
must end with the suffix, and Python's `glob` never matches a leading-dot
(hidden) entry with a `*` wildcard. -/
def globStarMatch (suf n : String) : Bool :=
  strEndsWith n suf && !(strStartsWith n ".")

/-- `glob.glob(os.path.join(wd, "*.apk"))`: the matching entries of the
directory listing, joined onto the directory, in listing order (glob does not
sort; src/main.py line 85). -/
def globApk (wd : String) (entries : List String) : List String :=
  (entries.filter (fun n => globStarMatch ".apk" n)).map (fun n => pathJoin wd n)

/-- One observable effect of a stage: a printed line or an external tool
invocation (`run(cmd)` / `subprocess.run`). -/
inductive Ev where
  | print (s : String) : Ev
  | tool (cmd : List String) : Ev
deriving DecidableEq, Repr

/-- Whether an event is an external tool invocation. -/
def Ev.isTool : Ev → Bool
  | Ev.tool _ => true
  | Ev.print _ => false

/-- Formalization helper: the events a stage emits after its last external
tool invocation, i.e. whatever it reports once all artifacts have been
attempted. -/
def afterLastTool (tr : List Ev) : List Ev :=
  (tr.reverse.takeWhile (fun e => !(Ev.isTool e))).reverse

/-- `APKTOOL.split()` for `APKTOOL = "java -jar apktool_2.12.0.jar"`
(src/main.py line 9). -/
def apktoolWords : List String := ["java", "-jar", "apktool_2.12.0.jar"]

/-- The decompiler invocation for one APK (src/main.py lines 73 and 100). -/
def apktoolDCmd (apk : String) : List String :=
  apktoolWords ++ ["d", apk, "-o", stripExt apk, "-f"]

/-- The message of the `RuntimeError` raised by `run` (src/main.py line 20). -/
def cmdFailed (cmd : List String) : String := "Command failed: " ++ joinSpace cmd

/-- The per-artifact failure line printed by the decompile stage
(src/main.py lines 76 and 103). -/
def decompFailMsg (apk : String) : String :=
  "Failed to decompile " ++ apk ++ ": " ++ cmdFailed (apktoolDCmd apk)

/-- The missing-directory error line shared by several stages
(src/main.py lines 81, 107, 136, 153). -/
def dirErrMsg (wd : String) : String := "Error: Directory '" ++ wd ++ "' does not exist"

/-- The working-directory defaulting at the top of `pull_apks`
(src/main.py lines 35-36): `None`, `""` (both falsy) and the literal
`"workdir"` are all replaced by the package name. -/
def resolveWorkdir (package : String) (workdir : Option String) : String :=
  match workdir with
  | none => package
  | some w => if w = "" ∨ w = "workdir" then package else w

/-- The disambiguated local name `f"split_{i}_{fname}"` (src/main.py line 56). -/
def splitName (i : Nat) (fname : String) : String :=
  "split_" ++ Nat.repr i ++ "_" ++ fname

/-- The local-name choice for the pull at index `i` (src/main.py lines 53-56):
keep the basename unless a file of that name already exists in the workdir. -/
def chooseLocal (existing : List String) (i : Nat) (fname : String) : String :=
  if fname ∈ existing then splitName i fname else fname

/-- The pull loop of `pull_apks` (src/main.py lines 52-57), assuming every
`adb pull` succeeds: returns the chosen local file names in pull order.
`existing` is the set of files currently in the workdir; each successful pull
adds the file it created. -/
def pullLocalNames : List String → Nat → List String → List String
  | _, _, [] => []
  | existing, i, p :: rest =>
    let localName := chooseLocal existing i (basename p)
    localName :: pullLocalNames (localName :: existing) (i + 1) rest

/-- The device-path-to-local-name mapping produced by `pull_apks` for a
workdir whose pre-existing files are `preexisting` (enumeration starts at 0,
src/main.py line 52). -/
def pullApksLocalNames (preexisting : List String) (paths : List String) : List String :=
  pullLocalNames preexisting 0 paths

/-- The pull loop with per-path failure: `run(["adb", "pull", ...])` raises on
failure and nothing catches it in `pull_apks`, so the loop aborts at the first
failing path.  Returns the local names pulled before the failure and whether a
`RuntimeError` escaped the stage. -/
def pullRun : List String → Nat → (String → Bool) → List String → List String × Bool
  | _, _, _, [] => ([], false)
  | existing, i, pullFails, p :: rest =>
    let localName := chooseLocal existing i (basename p)
    if pullFails p then ([], true)
    else
      let r := pullRun (localName :: existing) (i + 1) pullFails rest
      (localName :: r.1, r.2)

/-- `list_packages` (src/main.py lines 25-31) on the device-reported package
list: with a truthy search string it keeps exactly the packages containing it
case-insensitively; `None` and `""` are falsy and disable filtering.  The
returned list is what the function prints, one entry per line. -/
def listPackages (pkgs : List String) (search : Option String) : List String :=
  match search with
  | none => pkgs
  | some s => if s = "" then pkgs else pkgs.filter (fun p => strContainsSub (lowerStr p) (lowerStr s))

/-- The per-APK loop of `decompile_apks` (src/main.py lines 96-103): for each
APK print the header, invoke the decompiler, and print success or failure;
a `RuntimeError` is caught inside the loop so every APK is attempted.
Returns the event trace and the list of decompiled trees created (the
decompiler writes its output directory exactly when it succeeds). -/
def decompLoop (oracle : String → Bool) : List String → List Ev × List String
  | [] => ([], [])
  | apk :: rest =>
    let r := decompLoop oracle rest
    if oracle apk then
      (Ev.print ("Decompiling " ++ apk ++ " to " ++ stripExt apk)
        :: Ev.tool (apktoolDCmd apk)
        :: Ev.print (decompFailMsg apk) :: r.1, r.2)
    else
      (Ev.print ("Decompiling " ++ apk ++ " to " ++ stripExt apk)
        :: Ev.tool (apktoolDCmd apk)
        :: Ev.print ("Successfully decompiled: " ++ apk) :: r.1,
       stripExt apk :: r.2)

/-- `decompile_apks(workdir)` (src/main.py lines 78-103): directory-existence
check, `*.apk` glob, header prints, then the per-APK loop.  `oracle apk = true`
means the decompiler invocation for that APK exits non-zero. -/
def decompileApksRun (wd : String) (wdExists : Bool) (entries : List String)
    (oracle : String → Bool) : List Ev × List String :=
  if wdExists = false then ([Ev.print (dirErrMsg wd)], [])
  else
    let apks := globApk wd entries
    if apks.isEmpty then ([Ev.print ("No APK files found in directory: " ++ wd)], [])
    else
      let r := decompLoop oracle apks
      ((Ev.print ("Found " ++ Nat.repr apks.length ++ " APK file(s) to decompile:")
          :: apks.map (fun a => Ev.print (" - " ++ a))) ++ r.1, r.2)

/-- `decompile_single_apk(apk_path)` (src/main.py lines 59-76): existence and
`.apk`-extension validation before any tool invocation, then one decompiler
run with its failure caught. -/
def decompileSingleApk (p : String) (fileExists : Bool) (oracle : String → Bool) :
    List Ev × List String :=
  if fileExists = false then
    ([Ev.print ("Error: APK file '" ++ p ++ "' does not exist")], [])
  else if strEndsWith p ".apk" = false then
    ([Ev.print ("Error: '" ++ p ++ "' is not an APK file")], [])
  else if oracle p then
    ([Ev.print ("Decompiling " ++ p ++ " to " ++ stripExt p),
      Ev.tool (apktoolDCmd p), Ev.print (decompFailMsg p)], [])
  else
    ([Ev.print ("Decompiling " ++ p ++ " to " ++ stripExt p),
      Ev.tool (apktoolDCmd p), Ev.print ("Successfully decompiled: " ++ p)], [stripExt p])

/-- A directory entry as seen by `os.listdir` plus `os.path.isdir`
(src/main.py lines 111-113). -/
structure Entry where
  name : String
  isDir : Bool
deriving DecidableEq, Repr

/-- `folders_to_build` in `build_and_sign` (src/main.py lines 110-114): the
subdirectories whose names do not end in `.apk`, in listing order. -/
def buildFolders (entries : List Entry) : List String :=
  (entries.filter (fun e => e.isDir && !(strEndsWith e.name ".apk"))).map (fun e => e.name)

/-- The rebuild invocation for one decompiled tree (src/main.py line 128). -/
def apktoolBCmd (wd folder : String) : List String :=
  apktoolWords ++ ["b", pathJoin wd folder, "-o", pathJoin wd (folder ++ "-unsigned.apk")]

/-- The signer invocation on the rebuilt artifact (src/main.py line 129). -/
def signerCmd (wd folder : String) : List String :=
  ["java", "-jar", "uber-apk-signer.jar", "-a", pathJoin wd (folder ++ "-unsigned.apk")]

/-- The per-tree failure line of `build_and_sign` (src/main.py line 132). -/
def bsFailMsg (folder : String) (cmd : List String) : String :=
  "Failed to build/sign " ++ folder ++ ": " ++ cmdFailed cmd

/-- The per-tree loop of `build_and_sign` (src/main.py lines 124-132): rebuild,
then sign only if the rebuild succeeded; a failure of either is caught inside
the loop, so every tree is attempted. -/
def buildSignLoop (wd : String) (buildFails signFails : String → Bool) :
    List String → List Ev
  | [] => []
  | folder :: rest =>
    (if buildFails folder then
      [Ev.tool (apktoolBCmd wd folder), Ev.print (bsFailMsg folder (apktoolBCmd wd folder))]
    else if signFails folder then
      [Ev.tool (apktoolBCmd wd folder), Ev.tool (signerCmd wd folder),
       Ev.print (bsFailMsg folder (signerCmd wd folder))]
    else
      [Ev.tool (apktoolBCmd wd folder), Ev.tool (signerCmd wd folder),
       Ev.print ("Successfully built and signed: " ++ folder)])
    ++ buildSignLoop wd buildFails signFails rest

/-- `build_and_sign(workdir)` (src/main.py lines 105-132). -/
def buildAndSign (wd : String) (wdExists : Bool) (entries : List Entry)
    (buildFails signFails : String → Bool) : List Ev :=
  if wdExists = false then [Ev.print (dirErrMsg wd)]
  else
    let folders := buildFolders entries
    if folders.isEmpty then [Ev.print ("No decompiled APK folders found in: " ++ wd)]
    else
      (Ev.print ("Found " ++ Nat.repr folders.length ++ " folder(s) to build:")
          :: folders.map (fun f => Ev.print (" - " ++ f)))
        ++ buildSignLoop wd buildFails signFails folders

/-- Code-point lexicographic order on character lists: Python's `<=` on
strings, the order `sorted` uses at src/main.py line 139. -/
def lexLe : List Char → List Char → Bool
  | [], _ => true
  | _ :: _, [] => false
  | a :: as, b :: bs =>
    if a.toNat < b.toNat then true
    else if b.toNat < a.toNat then false
    else lexLe as bs

/-- Python's `<=` on strings. -/
def strLe (a b : String) : Bool := lexLe a.data b.data

/-- Python's `sorted` on a list of strings (any sorted permutation of a string
multiset is the same list, so insertion sort is an exact model). -/
def sortStr (l : List String) : List String :=
  List.insertionSort (fun a b => strLe a b = true) l

/-- The ready-to-install suffix the installer globs for (src/main.py
line 139). -/
def signedSuffix : String := "-aligned-debugSigned.apk"

/-- `sorted(glob.glob(os.path.join(workdir, "*-aligned-debugSigned.apk")))`
(src/main.py line 139). -/
def signedSel (wd : String) (entries : List String) : List String :=
  sortStr ((entries.filter (fun n => globStarMatch signedSuffix n)).map (fun n => pathJoin wd n))

/-- `install_split_apks(workdir)` (src/main.py lines 134-148); the final
`run(["adb", "install-multiple", "-r"] + apks)` is not wrapped in try/except,
so its failure (`installFails`) escapes as a `RuntimeError` (second component
of the result). -/
def installStage (wd : String) (wdExists : Bool) (entries : List String)
    (installFails : Bool) : List Ev × Bool :=
  if wdExists = false then ([Ev.print (dirErrMsg wd)], false)
  else
    let apks := signedSel wd entries
    if apks.isEmpty then ([Ev.print "No signed APKs found."], false)
    else
      ((Ev.print ("Installing " ++ Nat.repr apks.length ++ " APK(s):")
          :: apks.map (fun a => Ev.print (" - " ++ a)))
        ++ [Ev.tool (["adb", "install-multiple", "-r"] ++ apks)], installFails)

/-- `glob.glob(os.path.join(workdir, "*.aab"))` (src/main.py line 157). -/
def aabSel (wd : String) (entries : List String) : List String :=
  (entries.filter (fun n => globStarMatch ".aab" n)).map (fun n => pathJoin wd n)

/-- The bundler invocation of `build_universal` (src/main.py lines 166-169). -/
def bundletoolCmd (aab output : String) : List String :=
  ["java", "-jar", "bundletool-all-1.18.1.jar", "build-apks", "--mode=universal",
   "--bundle", aab, "--output", output]

/-- `build_universal(workdir, output_apk)` (src/main.py lines 150-173); the
bundler failure is caught, so nothing escapes. -/
def buildUniversal (wd : String) (wdExists : Bool) (entries : List String)
    (outputApk : String) (toolFails : Bool) : List Ev :=
  if wdExists = false then [Ev.print (dirErrMsg wd)]
  else
    match aabSel wd entries with
    | [] => [Ev.print "No AAB files found. Universal build requires an Android App Bundle (.aab) file."]
    | aab :: _ =>
      [Ev.print ("Creating universal APK from: " ++ aab),
       Ev.tool (bundletoolCmd aab outputApk)]
        ++ (if toolFails then
              [Ev.print ("Failed to create universal APK: " ++ cmdFailed (bundletoolCmd aab outputApk)),
               Ev.print "Note: This feature is mainly for converting AAB files to installable APKs"]
            else
              [Ev.print ("Successfully created universal APK: " ++ outputApk)])

/-- The `universal` mode of `__main__` (src/main.py line 213): it always passes
the fixed relative output path `"universal.apk"`. -/
def mainUniversal (wd : String) (wdExists : Bool) (entries : List String)
    (toolFails : Bool) : List Ev :=
  buildUniversal wd wdExists entries "universal.apk" toolFails

/-- The interpreter's exit code: 0 on normal completion, 1 when an uncaught
exception ends the process (`__main__` never calls `sys.exit`). -/
def exitCode (raised : Bool) : Nat := if raised then 1 else 0

/-- Exit code of the `decompile` mode of `__main__`: `decompile_apks` catches
every `RuntimeError` inside its per-APK loop (src/main.py lines 99-103) and
`__main__` (lines 178-213) never inspects a result or calls `sys.exit`, so the
interpreter exits 0 whatever failures the stage printed. -/
def mainExitDecompile (wd : String) (wdExists : Bool) (entries : List String)
    (oracle : String → Bool) : Nat :=
  let _ := decompileApksRun wd wdExists entries oracle
  exitCode false

/-- Exit code of the `build` mode of `__main__`: `build_and_sign` catches
every `RuntimeError` inside its per-tree loop (src/main.py lines 127-132), so
the interpreter exits 0 whatever build or sign failures the stage printed. -/
def mainExitBuild (wd : String) (wdExists : Bool) (entries : List Entry)
    (buildFails signFails : String → Bool) : Nat :=
  let _ := buildAndSign wd wdExists entries buildFails signFails
  exitCode false

/-- Exit code of the `universal` mode of `__main__`: `build_universal` catches
the bundler's `RuntimeError` (src/main.py lines 165-173), so the interpreter
exits 0 whether or not the bundler failed. -/
def mainExitUniversal (wd : String) (wdExists : Bool) (entries : List String)
    (toolFails : Bool) : Nat :=
  let _ := mainUniversal wd wdExists entries toolFails
  exitCode false

/-- Exit code of the `install` mode of `__main__`: the install invocation's
`RuntimeError` is uncaught (src/main.py line 148). -/
def mainExitInstall (wd : String) (wdExists : Bool) (entries : List String)
    (installFails : Bool) : Nat :=
  exitCode (installStage wd wdExists entries installFails).2

/-- Exit code of the `pull` mode of `__main__`: a failing `adb pull` raises an
uncaught `RuntimeError` (src/main.py line 57). -/
def mainExitPull (pre : List String) (paths : List String) (pullFails : String → Bool) : Nat :=
  exitCode (pullRun pre 0 pullFails paths).2

/-- Accumulator step reading one decimal digit (proof device for the
injectivity of `Nat.repr`). -/
def digitVal (c : Char) : Nat := c.toNat - '0'.toNat

/-- Value of a decimal digit string extending an accumulator (proof device). -/
def valAcc (a : Nat) (l : List Char) : Nat := l.foldl (fun x c => x * 10 + digitVal c) a

/-! ### Decimal numeral facts

`splitName i f = "split_" ++ Nat.repr i ++ "_" ++ f`.  To separate the index
from the basename we use that decimal numerals contain no underscore and that
`Nat.repr` is injective. -/

theorem strData_append (a b : String) : (a ++ b).data = a.data ++ b.data := rfl

theorem strEq_of_data (a b : String) (h : a.data = b.data) : a = b := by
  cases a; cases b; exact congrArg String.mk h

theorem digitChar_no_underscore : ∀ m, m < 10 → Nat.digitChar m ≠ '_' := by decide

theorem digitVal_digitChar : ∀ m, m < 10 → digitVal (Nat.digitChar m) = m := by decide

theorem toDigitsCore_ne_underscore :
    ∀ (fuel n : Nat) (acc : List Char), (∀ c ∈ acc, c ≠ '_') →
      ∀ c ∈ Nat.toDigitsCore 10 fuel n acc, c ≠ '_' := by
  intro fuel
  induction fuel with
  | zero => intro n acc hacc; simpa [Nat.toDigitsCore] using hacc
  | succ fuel ih =>
    intro n acc hacc
    have hd : Nat.digitChar (n % 10) ≠ '_' :=
      digitChar_no_underscore _ (Nat.mod_lt n (by decide))
    have hcons : ∀ c ∈ Nat.digitChar (n % 10) :: acc, c ≠ '_' := by
      intro c hc
      rcases List.mem_cons.mp hc with rfl | hc'
      · exact hd
      · exact hacc c hc'
    simp only [Nat.toDigitsCore]
    by_cases h0 : n / 10 = 0
    · simpa [h0] using hcons
    · simpa [h0] using ih (n / 10) (Nat.digitChar (n % 10) :: acc) hcons

theorem repr_ne_underscore (n : Nat) : ∀ c ∈ (Nat.repr n).data, c ≠ '_' := by
  have h : (Nat.repr n).data = Nat.toDigitsCore 10 (n + 1) n [] := rfl
  rw [h]
  exact toDigitsCore_ne_underscore (n + 1) n [] (by intro c hc; cases hc)

theorem toDigitsCore_val :
    ∀ (fuel n : Nat) (acc : List Char) (a : Nat), n < fuel →
      ∃ k, valAcc a (Nat.toDigitsCore 10 fuel n acc) = valAcc (a * 10 ^ k + n) acc := by
  intro fuel
  induction fuel with
  | zero => intro n acc a h; exact absurd h (Nat.not_lt_zero n)
  | succ fuel ih =>
    intro n acc a h
    have hdv : digitVal (Nat.digitChar (n % 10)) = n % 10 :=
      digitVal_digitChar _ (Nat.mod_lt n (by decide))
    simp only [Nat.toDigitsCore]
    by_cases h0 : n / 10 = 0
    · refine ⟨1, ?_⟩
      rw [if_pos h0]
      have harith : a * 10 + digitVal (Nat.digitChar (n % 10)) = a * 10 ^ 1 + n := by
        rw [hdv, pow_one]; omega
      show valAcc a (Nat.digitChar (n % 10) :: acc) = _
      show valAcc (a * 10 + digitVal (Nat.digitChar (n % 10))) acc = _
      rw [harith]
    · rw [if_neg h0]
      have hlt : n / 10 < fuel := by omega
      obtain ⟨k, hk⟩ := ih (n / 10) (Nat.digitChar (n % 10) :: acc) a hlt
      refine ⟨k + 1, ?_⟩
      rw [hk]
      show valAcc ((a * 10 ^ k + n / 10) * 10 + digitVal (Nat.digitChar (n % 10))) acc = _
      have harith : (a * 10 ^ k + n / 10) * 10 + digitVal (Nat.digitChar (n % 10))
          = a * 10 ^ (k + 1) + n := by
        rw [hdv]
        have hmod := Nat.div_add_mod n 10
        calc (a * 10 ^ k + n / 10) * 10 + n % 10
            = a * (10 ^ k * 10) + (10 * (n / 10) + n % 10) := by ring
          _ = a * 10 ^ (k + 1) + n := by rw [hmod, pow_succ]
      rw [harith]

theorem repr_val (n : Nat) : valAcc 0 (Nat.repr n).data = n := by
  have h : (Nat.repr n).data = Nat.toDigitsCore 10 (n + 1) n [] := rfl
  rw [h]
  obtain ⟨k, hk⟩ := toDigitsCore_val (n + 1) n [] 0 (Nat.lt_succ_self n)
  simpa [valAcc] using hk

theorem repr_inj {i j : Nat} (h : (Nat.repr i).data = (Nat.repr j).data) : i = j := by
  have hi := repr_val i
  rw [h, repr_val j] at hi
  omega

theorem splitAtUnderscore :
    ∀ (l1 t1 l2 t2 : List Char),
      (∀ c ∈ l1, c ≠ '_') → (∀ c ∈ l2, c ≠ '_') →
      l1 ++ '_' :: t1 = l2 ++ '_' :: t2 → l1 = l2 ∧ t1 = t2 := by
  intro l1
  induction l1 with
  | nil =>
    intro t1 l2 t2 _ h2 heq
    cases l2 with
    | nil => simpa using heq
    | cons c l2' =>
      exfalso
      simp only [List.nil_append, List.cons_append, List.cons.injEq] at heq
      exact h2 c (List.mem_cons_self c l2') heq.1.symm
  | cons c l1' ih =>
    intro t1 l2 t2 h1 h2 heq
    cases l2 with
    | nil =>
      exfalso
      simp only [List.nil_append, List.cons_append, List.cons.injEq] at heq
      exact h1 c (List.mem_cons_self c l1') heq.1
    | cons d l2' =>
      simp only [List.cons_append, List.cons.injEq] at heq
      have h1' : ∀ x ∈ l1', x ≠ '_' := fun x hx => h1 x (List.mem_cons_of_mem c hx)
      have h2' : ∀ x ∈ l2', x ≠ '_' := fun x hx => h2 x (List.mem_cons_of_mem d hx)
      obtain ⟨h3, h4⟩ := ih t1 l2' t2 h1' h2' heq.2
      exact ⟨by rw [heq.1, h3], h4⟩

theorem underscoreData : ("_" : String).data = ['_'] := rfl

theorem splitName_data (i : Nat) (f : String) :
    (splitName i f).data = "split_".data ++ ((Nat.repr i).data ++ '_' :: f.data) := by
  show (("split_" ++ Nat.repr i ++ "_") ++ f).data = _
  rw [strData_append, strData_append, strData_append, underscoreData]
  simp [List.append_assoc]

theorem splitName_inj {i j : Nat} {f g : String} (h : splitName i f = splitName j g) :
    i = j ∧ f = g := by
  have hd := congrArg String.data h
  rw [splitName_data, splitName_data] at hd
  have hd2 := List.append_cancel_left hd
  obtain ⟨hr, hf⟩ :=
    splitAtUnderscore _ _ _ _ (repr_ne_underscore i) (repr_ne_underscore j) hd2
  exact ⟨repr_inj hr, strEq_of_data _ _ hf⟩

theorem isPfxOf_append (l m : List Char) : List.isPrefixOf l (l ++ m) = true := by
  induction l with
  | nil => simp [List.isPrefixOf]
  | cons c cs ih => simp [List.isPrefixOf, ih]

theorem hasSplitTag_splitName (i : Nat) (f : String) : hasSplitTag (splitName i f) = true := by
  unfold hasSplitTag strStartsWith
  rw [splitName_data]
  exact isPfxOf_append _ _

/-! ### The pull stage's naming scheme -/

/-- Invariant proof for the pull loop: provided no remaining basename carries
the `split_` tag and every `split_`-tagged file already present was created by
an earlier pull index, the loop picks pairwise-distinct names, never one that
is already present, and each name is the basename or its `split_<index>`
disambiguation. -/
theorem pullLocalNames_spec :
    ∀ (paths existing : List String) (i : Nat),
      (∀ p ∈ paths, hasSplitTag (basename p) = false) →
      (∀ n ∈ existing, hasSplitTag n = true → ∃ j f, j < i ∧ n = splitName j f) →
      (pullLocalNames existing i paths).Nodup
      ∧ (∀ n ∈ pullLocalNames existing i paths, n ∉ existing)
      ∧ (∀ k, k < paths.length →
          (pullLocalNames existing i paths).getD k "" = basename (paths.getD k "")
          ∨ (pullLocalNames existing i paths).getD k ""
              = splitName (i + k) (basename (paths.getD k ""))) := by
  intro paths
  induction paths with
  | nil =>
    intro existing i _ _
    refine ⟨List.nodup_nil, ?_, ?_⟩
    · intro n hn; cases hn
    · intro k hk; cases hk
  | cons p rest ih =>
    intro existing i hpaths hex
    have hf : hasSplitTag (basename p) = false := hpaths p (List.mem_cons_self p rest)
    have hpaths' : ∀ q ∈ rest, hasSplitTag (basename q) = false :=
      fun q hq => hpaths q (List.mem_cons_of_mem p hq)
    by_cases hmem : basename p ∈ existing
    · -- collision: the chosen name is `splitName i (basename p)`
      have hln : pullLocalNames existing i (p :: rest)
          = splitName i (basename p)
            :: pullLocalNames (splitName i (basename p) :: existing) (i + 1) rest := by
        simp [pullLocalNames, chooseLocal, hmem]
      have hnotin : splitName i (basename p) ∉ existing := by
        intro hin
        obtain ⟨j, g, hj, hng⟩ := hex _ hin (hasSplitTag_splitName i (basename p))
        obtain ⟨hij, _⟩ := splitName_inj hng.symm
        omega
      have hex' : ∀ n ∈ splitName i (basename p) :: existing,
          hasSplitTag n = true → ∃ j f, j < i + 1 ∧ n = splitName j f := by
        intro n hn htag
        rcases List.mem_cons.mp hn with rfl | hn'
        · exact ⟨i, basename p, Nat.lt_succ_self i, rfl⟩
        · obtain ⟨j, g, hj, hng⟩ := hex n hn' htag
          exact ⟨j, g, Nat.lt_succ_of_lt hj, hng⟩
      obtain ⟨ihN, ihB, ihC⟩ := ih (splitName i (basename p) :: existing) (i + 1) hpaths' hex'
      rw [hln]
      refine ⟨?_, ?_, ?_⟩
      · exact List.nodup_cons.mpr
          ⟨fun hc => ihB _ hc (List.mem_cons_self _ _), ihN⟩
      · intro n hn
        rcases List.mem_cons.mp hn with rfl | hn'
        · exact hnotin
        · exact fun hc => ihB n hn' (List.mem_cons_of_mem _ hc)
      · intro k hk
        cases k with
        | zero => right; simp
        | succ k' =>
          have hk' : k' < rest.length := by simpa using hk
          rcases ihC k' hk' with hc | hc
          · left; simpa using hc
          · right
            have : i + 1 + k' = i + (k' + 1) := by omega
            rw [this] at hc
            simpa using hc
    · -- no collision: the chosen name is the basename itself
      have hln : pullLocalNames existing i (p :: rest)
          = basename p :: pullLocalNames (basename p :: existing) (i + 1) rest := by
        simp [pullLocalNames, chooseLocal, hmem]
      have hex' : ∀ n ∈ basename p :: existing,
          hasSplitTag n = true → ∃ j f, j < i + 1 ∧ n = splitName j f := by
        intro n hn htag
        rcases List.mem_cons.mp hn with rfl | hn'
        · rw [hf] at htag; cases htag
        · obtain ⟨j, g, hj, hng⟩ := hex n hn' htag
          exact ⟨j, g, Nat.lt_succ_of_lt hj, hng⟩
      obtain ⟨ihN, ihB, ihC⟩ := ih (basename p :: existing) (i + 1) hpaths' hex'
      rw [hln]
      refine ⟨?_, ?_, ?_⟩
      · exact List.nodup_cons.mpr
          ⟨fun hc => ihB _ hc (List.mem_cons_self _ _), ihN⟩
      · intro n hn
        rcases List.mem_cons.mp hn with rfl | hn'
        · exact hmem
        · exact fun hc => ihB n hn' (List.mem_cons_of_mem _ hc)
      · intro k hk
        cases k with
        | zero => left; simp
        | succ k' =>
          have hk' : k' < rest.length := by simpa using hk
          rcases ihC k' hk' with hc | hc
          · left; simpa using hc
          · right
            have : i + 1 + k' = i + (k' + 1) := by omega
            rw [this] at hc
            simpa using hc

/-- C1 (amended): provided no pre-existing file name and no pulled basename
begins with `split_`, the pull stage's local names are pairwise distinct (the
device-path-to-local-file mapping is injective), no pre-existing file is ever
overwritten, and the name chosen at pull index `i` is either the path's
basename or its disambiguation `split_<i>_<basename>`. -/
theorem pull_naming_injective (pre paths : List String)
    (hpre : ∀ n ∈ pre, hasSplitTag n = false)
    (hpaths : ∀ p ∈ paths, hasSplitTag (basename p) = false) :
    (pullApksLocalNames pre paths).Nodup
    ∧ (∀ n ∈ pullApksLocalNames pre paths, n ∉ pre)
    ∧ (∀ k, k < paths.length →
        (pullApksLocalNames pre paths).getD k "" = basename (paths.getD k "")
        ∨ (pullApksLocalNames pre paths).getD k ""
            = splitName k (basename (paths.getD k ""))) := by
  have h := pullLocalNames_spec paths pre 0 hpaths
    (fun n hn ht => absurd ht (by simp [hpre n hn]))
  simpa [pullApksLocalNames] using h

/-- Witness for `pull_naming_injective` at a concrete input. -/
theorem pull_naming_injective_witness :
    (pullApksLocalNames ["old.apk"] ["/a/base.apk", "/b/base.apk"]).Nodup
    ∧ (∀ n ∈ pullApksLocalNames ["old.apk"] ["/a/base.apk", "/b/base.apk"], n ∉ ["old.apk"])
    ∧ (∀ k, k < (["/a/base.apk", "/b/base.apk"] : List String).length →
        (pullApksLocalNames ["old.apk"] ["/a/base.apk", "/b/base.apk"]).getD k ""
          = basename ((["/a/base.apk", "/b/base.apk"] : List String).getD k "")
        ∨ (pullApksLocalNames ["old.apk"] ["/a/base.apk", "/b/base.apk"]).getD k ""
            = splitName k (basename ((["/a/base.apk", "/b/base.apk"] : List String).getD k ""))) :=
  pull_naming_injective ["old.apk"] ["/a/base.apk", "/b/base.apk"] (by decide) (by decide)

/-- C1 counterexample: as stated over arbitrary basenames and pre-existing
files the claim is false.  With device paths `/a/base.apk`,
`/b/split_2_base.apk`, `/c/base.apk` into an empty workdir, the distinct
device paths at indices 1 and 2 both map to the local file
`split_2_base.apk`; and with `split_1_base.apk` already present in the
workdir, pulling `/a/base.apk`, `/b/base.apk` overwrites that pre-existing
file. -/
theorem pull_naming_cex :
    pullApksLocalNames [] ["/a/base.apk", "/b/split_2_base.apk", "/c/base.apk"]
      = ["base.apk", "split_2_base.apk", "split_2_base.apk"]
    ∧ ¬ (pullApksLocalNames [] ["/a/base.apk", "/b/split_2_base.apk", "/c/base.apk"]).Nodup
    ∧ "split_1_base.apk" ∈ pullApksLocalNames ["split_1_base.apk"] ["/a/base.apk", "/b/base.apk"] := by
  refine ⟨by decide, by decide, by decide⟩

/-- C7: pulling a package whose device reports the path `/data/app/a/base.apk`
twice into an initially empty workdir yields exactly the local files
`base.apk` and `split_1_base.apk`, in that order. -/
theorem pull_duplicate_scenario :
    pullApksLocalNames [] ["/data/app/a/base.apk", "/data/app/a/base.apk"]
      = ["base.apk", "split_1_base.apk"] := by decide

/-- C9: `pull_apks` replaces a `None`, empty, or literally-`"workdir"`
working-directory argument by the package name, so the effective directory is
the string `"workdir"` only when the package itself is named `workdir` —
never through the parameter. -/
theorem workdir_resolution (package : String) :
    resolveWorkdir package none = package
    ∧ resolveWorkdir package (some "") = package
    ∧ resolveWorkdir package (some "workdir") = package
    ∧ ∀ w : Option String, resolveWorkdir package w = "workdir" → package = "workdir" := by
  refine ⟨rfl, by simp [resolveWorkdir], by simp [resolveWorkdir], ?_⟩
  intro w hw
  match w with
  | none => simpa [resolveWorkdir] using hw
  | some v =>
    by_cases hv : v = "" ∨ v = "workdir"
    · simpa [resolveWorkdir, hv] using hw
    · rw [resolveWorkdir, if_neg hv] at hw
      exact absurd (Or.inr hw) hv

/-- Witness for `workdir_resolution`: the defaulting at concrete inputs, and
the consequence applied at package `"workdir"`. -/
theorem workdir_resolution_witness :
    resolveWorkdir "com.example.app" (some "") = "com.example.app"
    ∧ ("workdir" : String) = "workdir" :=
  ⟨(workdir_resolution "com.example.app").2.1,
   (workdir_resolution "workdir").2.2.2 (some "workdir") (by decide)⟩

/-! ### Package listing -/

/-- C8: with a non-empty search string, `list_packages` returns exactly the
device-reported package identifiers containing it as a case-insensitive
substring; in particular the `camera` scenario returns only
`com.android.camera2`. -/
theorem list_packages_filter (pkgs : List String) (s : String) (hs : s ≠ "") (p : String) :
    (p ∈ listPackages pkgs (some s)
      ↔ p ∈ pkgs ∧ strContainsSub (lowerStr p) (lowerStr s) = true)
    ∧ listPackages ["com.android.camera2", "com.example.app"] (some "camera")
        = ["com.android.camera2"] := by
  constructor
  · simp [listPackages, if_neg hs, List.mem_filter]
  · decide

/-- Witness for `list_packages_filter` at the scenario input. -/
theorem list_packages_filter_witness :
    ("com.android.camera2" ∈ listPackages ["com.android.camera2", "com.example.app"] (some "camera")
      ↔ "com.android.camera2" ∈ (["com.android.camera2", "com.example.app"] : List String)
        ∧ strContainsSub (lowerStr "com.android.camera2") (lowerStr "camera") = true) :=
  (list_packages_filter ["com.android.camera2", "com.example.app"] "camera"
    (by decide) "com.android.camera2").1

/-! ### Decompile stage -/

/-- C5: the decompile stage's validation failures happen before any external
tool invocation: a missing file input — whatever its name, `.apk`-suffixed or
not — yields only the does-not-exist error, an existing non-`.apk` file input
yields only the not-an-APK error, and a missing directory input yields only
the directory error; none of these traces contains a tool invocation. -/
theorem decompile_validation (p wd : String) (entries : List String) (oracle : String → Bool) :
    (decompileSingleApk p false oracle).1
      = [Ev.print ("Error: APK file '" ++ p ++ "' does not exist")]
    ∧ (strEndsWith p ".apk" = false →
        (decompileSingleApk p true oracle).1
          = [Ev.print ("Error: '" ++ p ++ "' is not an APK file")])
    ∧ (decompileApksRun wd false entries oracle).1 = [Ev.print (dirErrMsg wd)]
    ∧ (∀ e ∈ (decompileSingleApk p false oracle).1, Ev.isTool e = false)
    ∧ (strEndsWith p ".apk" = false →
        ∀ e ∈ (decompileSingleApk p true oracle).1, Ev.isTool e = false)
    ∧ (∀ e ∈ (decompileApksRun wd false entries oracle).1, Ev.isTool e = false) := by
  refine ⟨by simp [decompileSingleApk], ?_, by simp [decompileApksRun], ?_, ?_, ?_⟩
  · intro hext
    simp [decompileSingleApk, hext]
  · simp [decompileSingleApk, Ev.isTool]
  · intro hext
    simp [decompileSingleApk, hext, Ev.isTool]
  · simp [decompileApksRun, Ev.isTool]

/-- Witness for `decompile_validation`: a nonexistent `.apk`-named input, an
existing non-APK input, and a missing directory. -/
theorem decompile_validation_witness :
    (decompileSingleApk "missing.apk" false (fun _ => false)).1
      = [Ev.print ("Error: APK file '" ++ "missing.apk" ++ "' does not exist")]
    ∧ (decompileSingleApk "notes.txt" true (fun _ => false)).1
      = [Ev.print ("Error: '" ++ "notes.txt" ++ "' is not an APK file")]
    ∧ (decompileApksRun "missing" false ["a.apk"] (fun _ => false)).1
      = [Ev.print (dirErrMsg "missing")] := by
  have h1 := decompile_validation "missing.apk" "missing" ["a.apk"] (fun _ => false)
  have h2 := decompile_validation "notes.txt" "missing" ["a.apk"] (fun _ => false)
  exact ⟨h1.1, h2.2.1 (by decide), h1.2.2.1⟩

/-- Per-APK behaviour of the decompile loop: every listed APK is attempted
(its tool invocation appears in the trace) even when others fail, each failing
APK's failure line is printed, and each succeeding APK's tree is created. -/
theorem decompLoop_spec (oracle : String → Bool) :
    ∀ (apks : List String) (apk : String), apk ∈ apks →
      Ev.tool (apktoolDCmd apk) ∈ (decompLoop oracle apks).1
      ∧ (oracle apk = true → Ev.print (decompFailMsg apk) ∈ (decompLoop oracle apks).1)
      ∧ (oracle apk = false → stripExt apk ∈ (decompLoop oracle apks).2) := by
  intro apks
  induction apks with
  | nil => intro apk h; cases h
  | cons a rest ih =>
    intro apk h
    rcases List.mem_cons.mp h with rfl | hmem
    · by_cases ho : oracle apk
      · refine ⟨?_, fun _ => ?_, fun hx => ?_⟩
        · simp [decompLoop, ho]
        · simp [decompLoop, ho]
        · rw [ho] at hx; cases hx
      · refine ⟨?_, fun hx => ?_, fun _ => ?_⟩
        · simp [decompLoop, ho]
        · rw [hx] at ho; exact absurd rfl ho
        · simp [decompLoop, ho]
    · obtain ⟨h1, h2, h3⟩ := ih apk hmem
      by_cases ho : oracle a
      · exact ⟨by simp [decompLoop, ho, h1], fun hx => by simp [decompLoop, ho, h2 hx],
          fun hx => by simp [decompLoop, ho, h3 hx]⟩
      · exact ⟨by simp [decompLoop, ho, h1], fun hx => by simp [decompLoop, ho, h2 hx],
          fun hx => by simp [decompLoop, ho, h3 hx]⟩

/-- A list with a member is not empty. -/
theorem isEmpty_false_of_mem {α : Type} {x : α} {l : List α} (h : x ∈ l) :
    l.isEmpty = false := by
  cases l with
  | nil => cases h
  | cons a as => rfl

/-- C3 (amended): the decompile stage isolates failures per artifact — every
globbed APK's decompiler invocation appears in the trace regardless of other
artifacts' failures, a failing artifact's failure line is printed (immediately,
inside the loop; no aggregated failure list is emitted at stage end), and a
succeeding artifact's decompiled tree is created. -/
theorem decompile_failure_isolated (wd : String) (entries : List String)
    (oracle : String → Bool) (apk : String) (h : apk ∈ globApk wd entries) :
    Ev.tool (apktoolDCmd apk) ∈ (decompileApksRun wd true entries oracle).1
    ∧ (oracle apk = true →
        Ev.print (decompFailMsg apk) ∈ (decompileApksRun wd true entries oracle).1)
    ∧ (oracle apk = false →
        stripExt apk ∈ (decompileApksRun wd true entries oracle).2) := by
  obtain ⟨h1, h2, h3⟩ := decompLoop_spec oracle (globApk wd entries) apk h
  have hne : (globApk wd entries).isEmpty = false := isEmpty_false_of_mem h
  simp only [decompileApksRun, hne, Bool.false_eq_true, if_false, ite_false]
  refine ⟨?_, fun hx => ?_, fun hx => ?_⟩
  · simp only [List.cons_append]
    exact List.mem_cons_of_mem _ (List.mem_append_right _ h1)
  · simp only [List.cons_append]
    exact List.mem_cons_of_mem _ (List.mem_append_right _ (h2 hx))
  · exact h3 hx

/-- Witness for `decompile_failure_isolated`: with `workdir/a.apk` failing and
`workdir/b.apk` succeeding, `a`'s failure is reported and `b`'s tree exists. -/
theorem decompile_failure_isolated_witness :
    Ev.print (decompFailMsg "workdir/a.apk")
      ∈ (decompileApksRun "workdir" true ["a.apk", "b.apk"] (fun s => s == "workdir/a.apk")).1
    ∧ stripExt "workdir/b.apk"
      ∈ (decompileApksRun "workdir" true ["a.apk", "b.apk"] (fun s => s == "workdir/a.apk")).2 :=
  ⟨(decompile_failure_isolated "workdir" ["a.apk", "b.apk"] (fun s => s == "workdir/a.apk")
      "workdir/a.apk" (by decide)).2.1 (by decide),
   (decompile_failure_isolated "workdir" ["a.apk", "b.apk"] (fun s => s == "workdir/a.apk")
      "workdir/b.apk" (by decide)).2.2 (by decide)⟩

/-- C3 counterexample to the end-of-stage failure list: in the `a.apk` fails /
`b.apk` succeeds scenario the only event after the stage's last tool
invocation is `b`'s success line — the failure was printed mid-loop and no
failure list is reported at the end. -/
theorem decompile_no_end_report :
    afterLastTool (decompileApksRun "workdir" true ["a.apk", "b.apk"]
        (fun s => s == "workdir/a.apk")).1
      = [Ev.print "Successfully decompiled: workdir/b.apk"]
    ∧ Ev.print (decompFailMsg "workdir/a.apk")
      ∈ (decompileApksRun "workdir" true ["a.apk", "b.apk"] (fun s => s == "workdir/a.apk")).1 := by
  refine ⟨by decide, by decide⟩

/-! ### Build+Sign stage -/

theorem pathJoin_data (d f : String) : (pathJoin d f).data = d.data ++ '/' :: f.data := by
  show ((d ++ "/") ++ f).data = _
  rw [strData_append, strData_append]
  have h : ("/" : String).data = ['/'] := rfl
  rw [h]
  simp

theorem signerCmd_inj (wd f g : String) (h : signerCmd wd f = signerCmd wd g) : f = g := by
  simp only [signerCmd, List.cons.injEq, and_true, true_and] at h
  have hd := congrArg String.data h
  rw [pathJoin_data, pathJoin_data] at hd
  have hd2 := List.append_cancel_left hd
  injection hd2 with _ hd3
  rw [strData_append, strData_append] at hd3
  exact strEq_of_data _ _ (List.append_cancel_right hd3)

theorem signer_ne_build (wd f g : String) :
    Ev.tool (signerCmd wd f) ≠ Ev.tool (apktoolBCmd wd g) := by
  intro h
  injection h with h2
  have h4 := congrArg (fun l : List String => l.getD 2 "") h2
  simp [signerCmd, apktoolBCmd, apktoolWords] at h4

theorem buildSignLoop_all_built (wd : String) (bf sf : String → Bool) :
    ∀ (fs : List String) (folder : String), folder ∈ fs →
      Ev.tool (apktoolBCmd wd folder) ∈ buildSignLoop wd bf sf fs := by
  intro fs
  induction fs with
  | nil => intro folder h; cases h
  | cons g rest ih =>
    intro folder h
    rcases List.mem_cons.mp h with rfl | hmem
    · by_cases hb : bf folder
      · simp [buildSignLoop, hb]
      · by_cases hs : sf folder
        · simp [buildSignLoop, hb, hs]
        · simp [buildSignLoop, hb, hs]
    · simp only [buildSignLoop]
      exact List.mem_append_right _ (ih folder hmem)

theorem buildSignLoop_sign_needs_build (wd : String) (bf sf : String → Bool) :
    ∀ (fs : List String) (folder : String),
      Ev.tool (signerCmd wd folder) ∈ buildSignLoop wd bf sf fs → bf folder = false := by
  intro fs
  induction fs with
  | nil => intro folder h; simp [buildSignLoop] at h
  | cons g rest ih =>
    intro folder h
    simp only [buildSignLoop] at h
    rcases List.mem_append.mp h with hblk | htail
    · by_cases hb : bf g
      · rw [if_pos hb] at hblk
        rcases List.mem_cons.mp hblk with he | he
        · exact absurd he (signer_ne_build wd folder g)
        · rcases List.mem_cons.mp he with he2 | he2
          · simp at he2
          · cases he2
      · by_cases hsg : sf g
        · rw [if_neg hb, if_pos hsg] at hblk
          rcases List.mem_cons.mp hblk with he | he
          · exact absurd he (signer_ne_build wd folder g)
          · rcases List.mem_cons.mp he with he2 | he2
            · injection he2 with he3
              rw [signerCmd_inj wd folder g he3]
              exact Bool.eq_false_iff.mpr hb
            · rcases List.mem_cons.mp he2 with he3 | he3
              · simp at he3
              · cases he3
        · rw [if_neg hb, if_neg hsg] at hblk
          rcases List.mem_cons.mp hblk with he | he
          · exact absurd he (signer_ne_build wd folder g)
          · rcases List.mem_cons.mp he with he2 | he2
            · injection he2 with he3
              rw [signerCmd_inj wd folder g he3]
              exact Bool.eq_false_iff.mpr hb
            · rcases List.mem_cons.mp he2 with he3 | he3
              · simp at he3
              · cases he3
    · exact ih folder htail

theorem buildAndSign_unfold (wd : String) (entries : List Entry) (bf sf : String → Bool)
    (hne : (buildFolders entries).isEmpty = false) :
    buildAndSign wd true entries bf sf
      = (Ev.print ("Found " ++ Nat.repr (buildFolders entries).length ++ " folder(s) to build:")
          :: (buildFolders entries).map (fun f => Ev.print (" - " ++ f)))
        ++ buildSignLoop wd bf sf (buildFolders entries) := by
  simp [buildAndSign, hne]

/-- C4: in the Build+Sign stage every candidate decompiled tree is rebuilt
(its build invocation appears in the trace) whatever the other trees'
failures, and the signer is invoked on a tree only if that tree's build
succeeded. -/
theorem build_then_sign (wd : String) (entries : List Entry) (bf sf : String → Bool)
    (folder : String) (h : folder ∈ buildFolders entries) :
    Ev.tool (apktoolBCmd wd folder) ∈ buildAndSign wd true entries bf sf
    ∧ (Ev.tool (signerCmd wd folder) ∈ buildAndSign wd true entries bf sf →
        bf folder = false) := by
  have hne := isEmpty_false_of_mem h
  rw [buildAndSign_unfold wd entries bf sf hne]
  constructor
  · exact List.mem_append_right _ (buildSignLoop_all_built wd bf sf _ folder h)
  · intro hs
    rcases List.mem_append.mp hs with hh | hl
    · exfalso
      rcases List.mem_cons.mp hh with he | he
      · simp at he
      · obtain ⟨x, _, hx⟩ := List.mem_map.mp he
        simp at hx
    · exact buildSignLoop_sign_needs_build wd bf sf _ folder hl

/-- Witness for `build_then_sign`: tree `a`'s build fails yet tree `b` is
still rebuilt, and a signer invocation on `b` entails `b`'s build succeeded. -/
theorem build_then_sign_witness :
    Ev.tool (apktoolBCmd "wd" "b")
      ∈ buildAndSign "wd" true [⟨"a", true⟩, ⟨"b", true⟩, ⟨"x.apk", false⟩]
          (fun s => s == "a") (fun _ => false)
    ∧ (Ev.tool (signerCmd "wd" "b")
        ∈ buildAndSign "wd" true [⟨"a", true⟩, ⟨"b", true⟩, ⟨"x.apk", false⟩]
            (fun s => s == "a") (fun _ => false)
      → (fun s : String => s == "a") "b" = false) :=
  build_then_sign "wd" [⟨"a", true⟩, ⟨"b", true⟩, ⟨"x.apk", false⟩]
    (fun s => s == "a") (fun _ => false) "b" (by decide)

/-! ### Lexicographic order facts for the install stage's `sorted` -/

theorem lexLe_cons_elim {y z : Char} {ys zs : List Char}
    (h : lexLe (y :: ys) (z :: zs) = true) :
    y.toNat < z.toNat ∨ (y.toNat = z.toNat ∧ lexLe ys zs = true) := by
  by_cases h1 : y.toNat < z.toNat
  · exact Or.inl h1
  · by_cases h2 : z.toNat < y.toNat
    · simp only [lexLe] at h
      rw [if_neg h1, if_pos h2] at h
      exact absurd h (by simp)
    · refine Or.inr ⟨by omega, ?_⟩
      simp only [lexLe] at h
      rwa [if_neg h1, if_neg h2] at h

theorem lexLe_cons_intro {y z : Char} {ys zs : List Char}
    (h : y.toNat < z.toNat ∨ (y.toNat = z.toNat ∧ lexLe ys zs = true)) :
    lexLe (y :: ys) (z :: zs) = true := by
  simp only [lexLe]
  rcases h with h | ⟨h1, h2⟩
  · rw [if_pos h]
  · rw [if_neg (by omega), if_neg (by omega)]
    exact h2

theorem lexLe_total : ∀ a b : List Char, lexLe a b = true ∨ lexLe b a = true := by
  intro a
  induction a with
  | nil => intro b; exact Or.inl rfl
  | cons x xs ih =>
    intro b
    cases b with
    | nil => exact Or.inr rfl
    | cons y ys =>
      rcases Nat.lt_trichotomy x.toNat y.toNat with h | h | h
      · exact Or.inl (lexLe_cons_intro (Or.inl h))
      · rcases ih ys with h2 | h2
        · exact Or.inl (lexLe_cons_intro (Or.inr ⟨h, h2⟩))
        · exact Or.inr (lexLe_cons_intro (Or.inr ⟨h.symm, h2⟩))
      · exact Or.inr (lexLe_cons_intro (Or.inl h))

theorem lexLe_trans : ∀ a b c : List Char, lexLe a b = true → lexLe b c = true →
    lexLe a c = true := by
  intro a
  induction a with
  | nil => intro b c _ _; rfl
  | cons x xs ih =>
    intro b c h1 h2
    cases b with
    | nil => exact absurd h1 (by simp [lexLe])
    | cons y ys =>
      cases c with
      | nil => exact absurd h2 (by simp [lexLe])
      | cons z zs =>
        apply lexLe_cons_intro
        rcases lexLe_cons_elim h1 with ha | ⟨ha, ha2⟩ <;>
          rcases lexLe_cons_elim h2 with hb | ⟨hb, hb2⟩
        · exact Or.inl (by omega)
        · exact Or.inl (by omega)
        · exact Or.inl (by omega)
        · exact Or.inr ⟨by omega, ih ys zs ha2 hb2⟩

instance strLeIsTotal : IsTotal String (fun a b => strLe a b = true) :=
  ⟨fun a b => lexLe_total a.data b.data⟩

instance strLeIsTrans : IsTrans String (fun a b => strLe a b = true) :=
  ⟨fun a b c => lexLe_trans a.data b.data c.data⟩

/-! ### Install stage -/

theorem filter_isTool_map_print {α : Type} (f : α → String) (l : List α) :
    (l.map (fun a => Ev.print (f a))).filter (fun e => Ev.isTool e) = [] := by
  induction l with
  | nil => rfl
  | cons a as ih => simp [Ev.isTool, ih]

theorem installStage_unfold (wd : String) (entries : List String) (instFails : Bool)
    (hne : (signedSel wd entries).isEmpty = false) :
    installStage wd true entries instFails
      = ((Ev.print ("Installing " ++ Nat.repr (signedSel wd entries).length ++ " APK(s):")
          :: (signedSel wd entries).map (fun a => Ev.print (" - " ++ a)))
        ++ [Ev.tool (["adb", "install-multiple", "-r"] ++ signedSel wd entries)], instFails) := by
  simp [installStage, hne]

/-- C2 (amended): the install stage selects exactly the non-hidden files
(names not beginning with a dot — Python's `glob` skips hidden entries) whose
names end with `-aligned-debugSigned.apk`, in code-point lexicographic order,
and its trace contains exactly one tool invocation: the single
`adb install-multiple -r` listing all of them; when no file matches, it prints
"No signed APKs found." and invokes nothing. -/
theorem install_stage_spec (wd : String) (entries : List String) (instFails : Bool)
    (hsome : signedSel wd entries ≠ []) :
    List.Sorted (fun a b => strLe a b = true) (signedSel wd entries)
    ∧ (∀ p : String, p ∈ signedSel wd entries ↔
        ∃ n, n ∈ entries ∧ strEndsWith n signedSuffix = true
          ∧ strStartsWith n "." = false ∧ pathJoin wd n = p)
    ∧ (installStage wd true entries instFails).1.filter (fun e => Ev.isTool e)
        = [Ev.tool (["adb", "install-multiple", "-r"] ++ signedSel wd entries)]
    ∧ (∀ es : List String, signedSel wd es = [] →
        (installStage wd true es instFails).1 = [Ev.print "No signed APKs found."]
        ∧ ∀ e ∈ (installStage wd true es instFails).1, Ev.isTool e = false) := by
  have hne : (signedSel wd entries).isEmpty = false := by
    cases hs : signedSel wd entries with
    | nil => exact absurd hs hsome
    | cons a as => rfl
  refine ⟨List.sorted_insertionSort _ _, ?_, ?_, ?_⟩
  · intro p
    simp [signedSel, sortStr, (List.perm_insertionSort _ _).mem_iff, List.mem_map,
      List.mem_filter, globStarMatch, Bool.and_eq_true, Bool.not_eq_true', and_assoc]
  · rw [installStage_unfold wd entries instFails hne]
    simp [List.filter_append, filter_isTool_map_print, Ev.isTool]
  · intro es hsel
    have hse : (signedSel wd es).isEmpty = true := by rw [hsel]; rfl
    constructor
    · simp [installStage, hse]
    · simp [installStage, hse, Ev.isTool]

/-- Witness for `install_stage_spec` at a concrete listing: one unsorted pair
of signed artifacts plus a stray unsigned APK. -/
theorem install_stage_spec_witness :
    (installStage "wd" true
        ["b-aligned-debugSigned.apk", "x.apk", "a-aligned-debugSigned.apk"] false).1.filter
        (fun e => Ev.isTool e)
      = [Ev.tool (["adb", "install-multiple", "-r"]
          ++ signedSel "wd" ["b-aligned-debugSigned.apk", "x.apk", "a-aligned-debugSigned.apk"])] :=
  (install_stage_spec "wd" ["b-aligned-debugSigned.apk", "x.apk", "a-aligned-debugSigned.apk"]
    false (by decide)).2.2.1

/-- C2 counterexample to "selects exactly the files whose names match the
suffix": a hidden file ending in the ready-to-install suffix is skipped by the
glob, so the stage reports "No signed APKs found." and issues no device
invocation even though a matching-suffix file is present. -/
theorem install_hidden_file_cex :
    strEndsWith ".hidden-aligned-debugSigned.apk" signedSuffix = true
    ∧ (installStage "workdir" true [".hidden-aligned-debugSigned.apk"] false).1
        = [Ev.print "No signed APKs found."]
    ∧ (installStage "workdir" true [".hidden-aligned-debugSigned.apk"] false).1.all
        (fun e => !(Ev.isTool e)) = true := by
  refine ⟨by decide, by decide, by decide⟩

/-! ### Universal-build stage -/

theorem buildUniversal_unfold (wd : String) (entries : List String) (out : String)
    (tf : Bool) (aab : String) (rest : List String)
    (hsel : aabSel wd entries = aab :: rest) :
    buildUniversal wd true entries out tf
      = [Ev.print ("Creating universal APK from: " ++ aab), Ev.tool (bundletoolCmd aab out)]
        ++ (if tf then
              [Ev.print ("Failed to create universal APK: " ++ cmdFailed (bundletoolCmd aab out)),
               Ev.print "Note: This feature is mainly for converting AAB files to installable APKs"]
            else [Ev.print ("Successfully created universal APK: " ++ out)]) := by
  simp [buildUniversal, hsel]

/-- C10: the `universal` mode always passes the fixed relative output path
`"universal.apk"` to the bundler — the single tool invocation names it as the
`--output` argument, it is never the workdir-joined path for any directory,
and the workdir only determines which `.aab` bundle is selected (the first
glob match, joined onto the workdir). -/
theorem universal_output_fixed (wd : String) (entries : List String) (tf : Bool)
    (h : aabSel wd entries ≠ []) :
    (mainUniversal wd true entries tf).filter (fun e => Ev.isTool e)
      = [Ev.tool (bundletoolCmd ((aabSel wd entries).headD "") "universal.apk")]
    ∧ (aabSel wd entries).headD ""
        = pathJoin wd ((entries.filter (fun n => globStarMatch ".aab" n)).headD "")
    ∧ (∀ d : String, pathJoin d "universal.apk" ≠ "universal.apk")
    ∧ (bundletoolCmd ((aabSel wd entries).headD "") "universal.apk").getLastD ""
        = "universal.apk" := by
  cases hsel : aabSel wd entries with
  | nil => exact absurd hsel h
  | cons aab rest =>
    refine ⟨?_, ?_, ?_, ?_⟩
    · rw [mainUniversal, buildUniversal_unfold wd entries "universal.apk" tf aab rest hsel]
      cases tf <;> simp [Ev.isTool]
    · cases hf : entries.filter (fun n => globStarMatch ".aab" n) with
      | nil =>
        rw [aabSel, hf] at hsel
        simp at hsel
      | cons x xs =>
        rw [aabSel, hf] at hsel
        simp only [List.map_cons, List.cons.injEq] at hsel
        simp [hsel.1]
    · intro d hd
      have h1 := congrArg (fun s : String => s.data.length) hd
      simp [pathJoin_data] at h1
    · simp [bundletoolCmd]

/-- Witness for `universal_output_fixed` at a concrete bundle listing. -/
theorem universal_output_fixed_witness :
    (mainUniversal "w" true ["app.aab"] false).filter (fun e => Ev.isTool e)
      = [Ev.tool (bundletoolCmd ((aabSel "w" ["app.aab"]).headD "") "universal.apk")] :=
  (universal_output_fixed "w" ["app.aab"] false (by decide)).1

/-! ### Process exit codes -/

theorem pullRun_raises (pf : String → Bool) :
    ∀ (paths existing : List String) (i : Nat),
      (pullRun existing i pf paths).2 = paths.any (fun p => pf p) := by
  intro paths
  induction paths with
  | nil => intro existing i; rfl
  | cons p rest ih =>
    intro existing i
    simp only [pullRun, List.any_cons]
    by_cases hp : pf p
    · simp [hp]
    · simp [hp, ih]

/-- C6 (amended): the process exits non-zero exactly when a stage failure is
uncaught.  Decompile, Build+Sign and Universal-Build catch every per-artifact
`RuntimeError` and exit 0 whatever failures they printed; the install mode
exits 1 iff its single uncaught `adb install-multiple` invocation fails, and
the pull mode exits 1 iff some `adb pull` fails (the uncaught `RuntimeError`
raises through `__main__`). -/
theorem exit_code_policy (wd : String) (entries : List String) (oracle : String → Bool)
    (dentries : List Entry) (bf sf : String → Bool) (tf : Bool)
    (pre paths : List String) (pf : String → Bool) (instFails : Bool)
    (hsome : signedSel wd entries ≠ []) :
    mainExitDecompile wd true entries oracle = 0
    ∧ mainExitBuild wd true dentries bf sf = 0
    ∧ mainExitUniversal wd true entries tf = 0
    ∧ (mainExitInstall wd true entries instFails = 1 ↔ instFails = true)
    ∧ (mainExitPull pre paths pf = 1 ↔ paths.any (fun p => pf p) = true) := by
  have hne : (signedSel wd entries).isEmpty = false := by
    cases hs : signedSel wd entries with
    | nil => exact absurd hs hsome
    | cons a as => rfl
  refine ⟨rfl, rfl, rfl, ?_, ?_⟩
  · rw [mainExitInstall, installStage_unfold wd entries instFails hne]
    cases instFails <;> simp [exitCode]
  · rw [mainExitPull, pullRun_raises pf paths pre 0]
    cases hany : paths.any (fun p => pf p) <;> simp [exitCode]

/-- Witness for `exit_code_policy` at concrete inputs: failing install and
pull invocations exit 1, while a failing build and a failing bundler run
exit 0. -/
theorem exit_code_policy_witness :
    mainExitInstall "wd" true ["a-aligned-debugSigned.apk"] true = 1
    ∧ mainExitPull [] ["/d/base.apk"] (fun _ => true) = 1
    ∧ mainExitBuild "wd" true [⟨"a", true⟩] (fun _ => true) (fun _ => false) = 0
    ∧ mainExitUniversal "wd" true ["app.aab"] true = 0 := by
  have h := exit_code_policy "wd" ["a-aligned-debugSigned.apk"] (fun _ => false)
    [⟨"a", true⟩] (fun _ => true) (fun _ => false) true [] ["/d/base.apk"] (fun _ => true)
    true (by decide)
  exact ⟨h.2.2.2.1.mpr rfl, h.2.2.2.2.mpr (by decide), h.2.1, h.2.2.1⟩

/-- C6 counterexample: a decompile invocation whose core loop reports a
failure (`workdir/a.apk` fails to decompile, and the failure line is in the
trace) still exits with code 0 — `decompile_apks` catches the `RuntimeError`
and `__main__` never sets an exit code. -/
theorem exit_zero_on_decompile_failure_cex :
    mainExitDecompile "workdir" true ["a.apk", "b.apk"] (fun s => s == "workdir/a.apk") = 0
    ∧ Ev.print (decompFailMsg "workdir/a.apk")
        ∈ (decompileApksRun "workdir" true ["a.apk", "b.apk"] (fun s => s == "workdir/a.apk")).1 :=
  ⟨rfl, by decide⟩

end ApkModder
